import Mathlib

/-!
Verification of the SmartStore ticket/product pipeline.

Shallow embedding of the pipeline code in services/tickets_builder.py,
services/products_builder.py and services/vertex.py. SQL statements are
embedded by their BigQuery semantics over lists of rows; module-level
mutable globals are threaded as explicit state; external AI capabilities
(embedding, structured extraction) are abstract function parameters or
abstract input lists of their row-wise outputs.
-/

namespace SmartStore

/-! ### services/vertex.py -/

/-- Embeds the vertexai GenerativeModel handle: it remembers the model name
it was constructed with. -/
structure GenerativeModel where
  model_name : String
deriving DecidableEq, Repr

/-- Embeds vertex.get_model. The module global _model is threaded as an
explicit Option state: when the cache is empty the model is constructed from
the argument and cached; otherwise the cached handle is returned and the
argument is ignored. Returns (result, new state). -/
def get_model (model_name : String) (st : Option GenerativeModel) :
    GenerativeModel × Option GenerativeModel :=
  match st with
  | some m => (m, some m)
  | none => (⟨model_name⟩, some ⟨model_name⟩)

/-- A sequence of get_model calls in one process, threading the module
state and collecting each returned handle. -/
def get_model_calls (args : List String) (st : Option GenerativeModel) :
    List GenerativeModel × Option GenerativeModel :=
  match args with
  | [] => ([], st)
  | a :: rest =>
    let r := get_model a st
    let rr := get_model_calls rest r.2
    (r.1 :: rr.1, rr.2)

lemma get_model_cached (b : String) (m : GenerativeModel) :
    get_model b (some m) = (m, some m) := rfl

lemma get_model_calls_cached (args : List String) (m : GenerativeModel) :
    get_model_calls args (some m) = (List.replicate args.length m, some m) := by
  induction args with
  | nil => rfl
  | cons a rest ih => simp [get_model_calls, get_model, ih, List.replicate]

/-! ### services/products_builder.py helpers -/

/-- Embeds the Python test p.endswith of the one-character string slash:
the last character of p is a slash. -/
def endsWithSlash (s : String) : Bool := s.data.getLast? == some '/'

/-- Embeds products_builder normalize of the GCS location string: the empty
string is returned as is, otherwise a trailing slash is appended when absent
(source name is the private normalize helper in products_builder.py). -/
def normalizeGcs (p : String) : String :=
  if p = "" then p
  else if endsWithSlash p then p
  else p ++ "/"

lemma endsWithSlash_append_slash (p : String) : endsWithSlash (p ++ "/") = true := by
  simp [endsWithSlash, String.data_append]

lemma append_slash_ne_empty (p : String) : p ++ "/" ≠ "" := by
  intro h
  have hd := congrArg String.data h
  simp [String.data_append] at hd

/-! ### Schema evolution (ALTER TABLE ADD COLUMN IF NOT EXISTS) -/

/-- A table schema: ordered list of (column name, declared type). -/
abbrev Schema := List (String × String)

def hasColumn (s : Schema) (c : String) : Bool := s.any (fun col => col.1 == c)

/-- Embeds BigQuery ALTER TABLE ADD COLUMN semantics: adding an existing
column is a duplicate-column error unless IF NOT EXISTS was given, in which
case it is a no-op. -/
def alterAddColumn (ifNotExists : Bool) (s : Schema) (c ty : String) :
    Except String Schema :=
  if hasColumn s c then
    if ifNotExists then Except.ok s else Except.error "duplicate column"
  else Except.ok (s ++ [(c, ty)])

/-- Embeds the sql_add step of build_text_embeddings (both builders): ALTER
TABLE ADD COLUMN IF NOT EXISTS, the realization of ensure_column. -/
def ensure_column (s : Schema) (c ty : String) : Except String Schema :=
  alterAddColumn true s c ty

/-! ### Orchestrator (run_tickets_builder) -/

/-- The four stages of run_tickets_builder, in source order. -/
inductive Stage where
  | createCallObjectTable
  | transcribeCallsToTable
  | buildTicketsTableStage
  | buildTextEmbeddingsStage
deriving DecidableEq, Repr

/-- The fixed stage sequence of run_tickets_builder. -/
def stageOrder : List Stage :=
  [Stage.createCallObjectTable, Stage.transcribeCallsToTable,
   Stage.buildTicketsTableStage, Stage.buildTextEmbeddingsStage]

/-- Runs stages in order; oc gives each stage outcome (none = success,
some e = the exception it raises). A raised exception propagates: the
failing stage is the last one invoked and the rest are skipped. Returns the
list of stages invoked and the propagated error, embedding straight-line
Python calls with exception propagation. -/
def runStages (oc : Stage → Option String) : List Stage → List Stage × Option String
  | [] => ([], none)
  | s :: rest =>
    match oc s with
    | some e => ([s], some e)
    | none =>
      let r := runStages oc rest
      (s :: r.1, r.2)

/-- Embeds run_tickets_builder: the four stage calls in source order, no
guards, no retry. -/
def run_tickets_builder (oc : Stage → Option String) : List Stage × Option String :=
  runStages oc stageOrder

lemma runStages_spec (oc : Stage → Option String) (l : List Stage) :
    (∃ k, k ≤ l.length ∧ (runStages oc l).1 = l.take k) ∧
    ((runStages oc l).2 = none → (runStages oc l).1 = l ∧ ∀ s ∈ l, oc s = none) ∧
    (∀ e, (runStages oc l).2 = some e →
      ∃ l0 s, (runStages oc l).1 = l0 ++ [s] ∧ oc s = some e ∧
        ∀ s0 ∈ l0, oc s0 = none) := by
  induction l with
  | nil =>
    refine ⟨⟨0, by simp [runStages]⟩, by simp [runStages], ?_⟩
    intro e he
    simp [runStages] at he
  | cons s rest ih =>
    rcases ih with ⟨⟨k, hk, htake⟩, hnone, hsome⟩
    cases hoc : oc s with
    | some e =>
      refine ⟨⟨1, by simp, by simp [runStages, hoc]⟩, ?_, ?_⟩
      · intro h
        simp [runStages, hoc] at h
      · intro e2 he2
        simp [runStages, hoc] at he2
        exact ⟨[], s, by simp [runStages, hoc], by simp [hoc, he2], by simp⟩
    | none =>
      refine ⟨⟨k + 1, by simpa using hk, by simp [runStages, hoc, htake]⟩, ?_, ?_⟩
      · intro h
        simp only [runStages, hoc] at h
        rcases hnone h with ⟨h1, h2⟩
        refine ⟨by simp [runStages, hoc, h1], ?_⟩
        intro s0 hs0
        rcases List.mem_cons.1 hs0 with h | h
        · simpa [h] using hoc
        · exact h2 s0 h
      · intro e he
        simp only [runStages, hoc] at he
        rcases hsome e he with ⟨l0, sf, h1, h2, h3⟩
        refine ⟨s :: l0, sf, by simp [runStages, hoc, h1], h2, ?_⟩
        intro s0 hs0
        rcases List.mem_cons.1 hs0 with h | h
        · simpa [h] using hoc
        · exact h3 s0 h

/-! ### Claim theorems (vertex, normalize, schema, orchestrator) -/

/-- C9: after the first call get_model a in a process, every subsequent call
get_model b returns the cached model constructed for a, regardless of b; the
argument is ignored once the module cache is populated. -/
theorem get_model_ignores_args_after_first :
    (∀ b c m, get_model b (some m) = get_model c (some m)) ∧
    (∀ a args, (get_model_calls (a :: args) none).1 =
      List.replicate (args.length + 1) (GenerativeModel.mk a)) := by
  refine ⟨fun b c m => rfl, fun a args => ?_⟩
  simp [get_model_calls, get_model, get_model_calls_cached, List.replicate]

/-- C10: the GCS location normalizer maps the empty string to itself, appends
a slash to any nonempty string not already ending in one, is idempotent, and
always yields a slash-terminated string on nonempty input. -/
theorem normalizeGcs_spec :
    (normalizeGcs "" = "") ∧
    (∀ p, p ≠ "" → endsWithSlash p = false → normalizeGcs p = p ++ "/") ∧
    (∀ p, normalizeGcs (normalizeGcs p) = normalizeGcs p) ∧
    (∀ p, p ≠ "" → endsWithSlash (normalizeGcs p) = true) := by
  have hend : ∀ p, p ≠ "" → endsWithSlash (normalizeGcs p) = true := by
    intro p hp
    unfold normalizeGcs
    rw [if_neg hp]
    cases hs : endsWithSlash p with
    | true => simpa using hs
    | false => simp [endsWithSlash_append_slash]
  refine ⟨rfl, ?_, ?_, hend⟩
  · intro p hp hs
    simp [normalizeGcs, hp, hs]
  · intro p
    by_cases hp : p = ""
    · simp [hp, normalizeGcs]
    · have h1 := hend p hp
      cases hs : endsWithSlash p with
      | true =>
        simp [normalizeGcs, hp, hs]
      | false =>
        have hne := append_slash_ne_empty p
        simp [normalizeGcs, hp, hs, hne, endsWithSlash_append_slash]

/-- C10 witness: concrete evaluation of the normalizer properties. -/
theorem normalizeGcs_spec_witness :
    normalizeGcs "gs://bucket/images" = "gs://bucket/images" ++ "/" :=
  normalizeGcs_spec.2.1 "gs://bucket/images" (by decide) (by decide)

/-- C5: ensure_column (ADD COLUMN IF NOT EXISTS) succeeds, and running it a
second time with the same table, column and type succeeds again as a no-op,
with the final schema identical to the schema after the first run. -/
theorem ensure_column_idempotent : ∀ s c ty, ∃ s1,
    ensure_column s c ty = Except.ok s1 ∧ ensure_column s1 c ty = Except.ok s1 := by
  intro s c ty
  by_cases h : hasColumn s c = true
  · exact ⟨s, by simp [ensure_column, alterAddColumn, h], by simp [ensure_column, alterAddColumn, h]⟩
  · refine ⟨s ++ [(c, ty)], by simp [ensure_column, alterAddColumn, h], ?_⟩
    have h2 : hasColumn (s ++ [(c, ty)]) c = true := by
      simp [hasColumn, List.any_append]
    simp [ensure_column, alterAddColumn, h2]

/-- C4: run_tickets_builder invokes its stages in the fixed source order
(its invocation list is always a duplicate-free prefix of the four-stage
sequence, so no stage is retried); when every stage succeeds it runs exactly
the four stages in order; when a stage raises, that stage is the last one
invoked, every earlier stage succeeded, and the error propagates with all
later stages skipped. -/
theorem run_tickets_builder_fail_fast : ∀ oc : Stage → Option String,
    (∃ k, k ≤ 4 ∧ (run_tickets_builder oc).1 = stageOrder.take k) ∧
    (run_tickets_builder oc).1.Nodup ∧
    ((∀ s, oc s = none) → run_tickets_builder oc = (stageOrder, none)) ∧
    (∀ e, (run_tickets_builder oc).2 = some e →
      ∃ l0 s, (run_tickets_builder oc).1 = l0 ++ [s] ∧ oc s = some e ∧
        ∀ s0 ∈ l0, oc s0 = none) := by
  intro oc
  rcases runStages_spec oc stageOrder with ⟨⟨k, hk, htake⟩, hnone, hsome⟩
  have htakek : ∃ k, k ≤ 4 ∧ (run_tickets_builder oc).1 = stageOrder.take k :=
    ⟨k, by simpa [stageOrder] using hk, htake⟩
  refine ⟨htakek, ?_, ?_, hsome⟩
  · have hnd : stageOrder.Nodup := by decide
    have htake2 : (run_tickets_builder oc).1 = List.take k stageOrder := htake
    rw [htake2]
    exact hnd.sublist (List.take_sublist k stageOrder)
  · intro hall
    cases hres : (run_tickets_builder oc).2 with
    | none =>
      have := hnone hres
      have hfst : (run_tickets_builder oc).1 = stageOrder := this.1
      calc run_tickets_builder oc
          = ((run_tickets_builder oc).1, (run_tickets_builder oc).2) := rfl
        _ = (stageOrder, none) := by rw [hfst, hres]
    | some e =>
      rcases hsome e hres with ⟨l0, s, _, h2, _⟩
      rw [hall s] at h2
      exact absurd h2 (by simp)

/-- C4 witness: with every stage succeeding, exactly the four stages run in
source order with no error. -/
theorem run_tickets_builder_fail_fast_witness :
    run_tickets_builder (fun _ => none) = (stageOrder, none) :=
  (run_tickets_builder_fail_fast (fun _ => none)).2.2.1 (fun _ => rfl)

/-! ### build_tickets_table (tickets_builder.py)

The four CTE streams of the CREATE OR REPLACE statement. The three
AI.GENERATE_TABLE calls are an external structured-extraction capability:
their row-wise outputs (five nullable STRING fields each) are the abstract
input lists chats, emails and calls below; forms rows have the same shape
and are passed through unchanged. Each CTE tags its stream with a source
literal. SQL evaluates WHERE before the window functions of the SELECT
list, so ROW_NUMBER numbers the rows that survive the completeness filter. -/

/-- One record of five nullable STRING fields: a forms row, or one output
row of an AI.GENERATE_TABLE extraction. -/
structure SourceRecord where
  subject : Option String
  body : Option String
  answer : Option String
  type : Option String
  priority : Option String
deriving DecidableEq, Repr

/-- A record tagged with its source literal, as produced by each CTE. -/
structure TaggedRecord where
  source : String
  subject : Option String
  body : Option String
  answer : Option String
  type : Option String
  priority : Option String
deriving DecidableEq, Repr

/-- The SELECT of each CTE: tag with the source literal, pass the five
fields through unchanged. -/
def tagSource (src : String) (r : SourceRecord) : TaggedRecord :=
  { source := src, subject := r.subject, body := r.body, answer := r.answer,
    type := r.type, priority := r.priority }

def forms_prepped (forms : List SourceRecord) : List TaggedRecord :=
  forms.map (tagSource "form")

def from_chats (chats : List SourceRecord) : List TaggedRecord :=
  chats.map (tagSource "chat")

def from_emails (emails : List SourceRecord) : List TaggedRecord :=
  emails.map (tagSource "email")

def from_calls (calls : List SourceRecord) : List TaggedRecord :=
  calls.map (tagSource "call")

/-- The union_all CTE: UNION ALL of the four tagged streams. -/
def union_all (forms chats emails calls : List SourceRecord) : List TaggedRecord :=
  forms_prepped forms ++ from_chats chats ++ from_emails emails ++ from_calls calls

/-- SQL test: the field IS NOT NULL AND the field is not the empty string. -/
def nonEmptyStr : Option String → Bool
  | none => false
  | some s => s != ""

/-- The WHERE clause of the final SELECT: subject, body and answer each
non-null and non-empty. -/
def completeRecord (r : TaggedRecord) : Bool :=
  nonEmptyStr r.subject && nonEmptyStr r.body && nonEmptyStr r.answer

/-- A row of the final tickets table. -/
structure Ticket where
  ticket_id : Nat
  payload : TaggedRecord
deriving DecidableEq, Repr

/-- ROW_NUMBER OVER () starting after n: position n + 1, n + 2, ... -/
def assignIdsFrom : Nat → List TaggedRecord → List Ticket
  | _, [] => []
  | n, r :: rs => { ticket_id := n + 1, payload := r } :: assignIdsFrom (n + 1) rs

/-- ROW_NUMBER OVER () AS ticket_id: dense 1-based numbering by position. -/
def assignIds (rs : List TaggedRecord) : List Ticket :=
  assignIdsFrom 0 rs

/-- Embeds the final SELECT of build_tickets_table: the WHERE completeness
filter is evaluated first, then ROW_NUMBER numbers the surviving rows. -/
def build_tickets_table (forms chats emails calls : List SourceRecord) : List Ticket :=
  assignIds ((union_all forms chats emails calls).filter completeRecord)

/-- Modelled from the claim and the spec section 4.4 step order, for
comparison with build_tickets_table: ticket_id assigned densely over the
concatenated stream first, the completeness filter applied afterwards. -/
def spec_order_tickets_table (forms chats emails calls : List SourceRecord) : List Ticket :=
  (assignIds (union_all forms chats emails calls)).filter (fun t => completeRecord t.payload)

lemma assignIdsFrom_map_payload (rs : List TaggedRecord) :
    ∀ n, (assignIdsFrom n rs).map Ticket.payload = rs := by
  induction rs with
  | nil => intro n; rfl
  | cons r rest ih => intro n; simp [assignIdsFrom, ih]

lemma assignIdsFrom_map_id (rs : List TaggedRecord) :
    ∀ n, (assignIdsFrom n rs).map Ticket.ticket_id = List.range' (n + 1) rs.length := by
  induction rs with
  | nil => intro n; rfl
  | cons r rest ih => intro n; simp [assignIdsFrom, ih, List.range'_succ]

lemma assignIdsFrom_length (rs : List TaggedRecord) :
    ∀ n, (assignIdsFrom n rs).length = rs.length := by
  induction rs with
  | nil => intro n; rfl
  | cons r rest ih => intro n; simp [assignIdsFrom, ih]

lemma mem_assignIdsFrom {t : Ticket} (rs : List TaggedRecord) :
    ∀ n, t ∈ assignIdsFrom n rs → t.payload ∈ rs := by
  induction rs with
  | nil => intro n h; simp [assignIdsFrom] at h
  | cons r rest ih =>
    intro n h
    rcases List.mem_cons.1 h with h | h
    · simp [h]
    · exact List.mem_cons_of_mem r (ih (n + 1) h)

lemma filter_assignIdsFrom (p : TaggedRecord → Bool) (rs : List TaggedRecord) :
    ∀ n, ((assignIdsFrom n rs).filter (fun t => p t.payload)).map Ticket.payload = rs.filter p := by
  induction rs with
  | nil => intro n; rfl
  | cons r rest ih =>
    intro n
    cases hp : p r with
    | true => simp [assignIdsFrom, List.filter, hp, ih]
    | false => simp [assignIdsFrom, List.filter, hp, ih]

/-- The records of the built table are exactly the complete records of the
union, in order. -/
lemma map_payload_build (forms chats emails calls : List SourceRecord) :
    (build_tickets_table forms chats emails calls).map Ticket.payload =
      (union_all forms chats emails calls).filter completeRecord :=
  assignIdsFrom_map_payload _ 0

lemma source_of_mem_union {r : TaggedRecord} {forms chats emails calls : List SourceRecord} :
    r ∈ union_all forms chats emails calls →
      r.source ∈ (["form", "chat", "email", "call"] : List String) := by
  intro h
  simp only [union_all, forms_prepped, from_chats, from_emails, from_calls,
    List.mem_append, List.mem_map] at h
  rcases h with ((⟨x, _, hx⟩ | ⟨x, _, hx⟩) | ⟨x, _, hx⟩) | ⟨x, _, hx⟩ <;>
    simp [← hx, tagSource]

lemma filter_source_tag (src : String) (q : TaggedRecord → Bool)
    (xs : List SourceRecord) (hsrc : (src == "form") = false) :
    (xs.map (tagSource src)).filter (fun r => q r && (r.source == "form")) = [] := by
  induction xs with
  | nil => rfl
  | cons x rest ih => simp [tagSource, List.filter, hsrc, ih]

lemma filter_form_complete (forms : List SourceRecord)
    (h : ∀ f ∈ forms, completeRecord (tagSource "form" f) = true) :
    (forms.map (tagSource "form")).filter
        (fun r => completeRecord r && (r.source == "form")) =
      forms.map (tagSource "form") := by
  induction forms with
  | nil => rfl
  | cons f rest ih =>
    have hf := h f (List.mem_cons_self f rest)
    have hrest : ∀ g ∈ rest, completeRecord (tagSource "form" g) = true :=
      fun g hg => h g (List.mem_cons_of_mem f hg)
    have hcond : (completeRecord (tagSource "form" f) &&
        ((tagSource "form" f).source == "form")) = true := by
      rw [hf]
      simp [tagSource]
    rw [List.map_cons]
    simp only [List.filter_cons, hcond, if_true]
    rw [ih hrest]

lemma filter_filter_general (p q : TaggedRecord → Bool) (l : List TaggedRecord) :
    (l.filter p).filter q = l.filter (fun a => p a && q a) := by
  induction l with
  | nil => rfl
  | cons a t ih =>
    cases hp : p a <;> cases hq : q a <;> simp [List.filter_cons, hp, hq, ih]

/-! ### Concrete example records -/

/-- A complete source record (all three gated fields non-empty). -/
def exComplete : SourceRecord :=
  { subject := some "Login issue", body := some "Cannot log in",
    answer := some "Reset password via link", type := some "Account & Access",
    priority := some "medium" }

/-- A record the completeness gate must drop: null answer. -/
def exIncomplete : SourceRecord :=
  { subject := some "Broken charger", body := some "The charger stopped working",
    answer := none, type := some "Other", priority := some "low" }

/-- A complete record whose type and priority are outside the declared
enums. -/
def exGarbage : SourceRecord :=
  { subject := some "Weird labels", body := some "Extractor drifted",
    answer := some "Free text passes through", type := some "NOT A REAL TYPE",
    priority := some "urgent42" }

/-- C2: every record of the built tickets table has non-null, non-empty
subject, body and answer, and the records of the table are exactly the
complete records of the four-source union, so any input record with a null
or empty gated field is excluded. -/
theorem tickets_completeness_gate : ∀ forms chats emails calls,
    ((build_tickets_table forms chats emails calls).map Ticket.payload =
      (union_all forms chats emails calls).filter completeRecord) ∧
    ∀ t, t ∈ build_tickets_table forms chats emails calls →
      completeRecord t.payload = true := by
  intro forms chats emails calls
  refine ⟨map_payload_build forms chats emails calls, ?_⟩
  intro t ht
  have h1 : t.payload ∈ (build_tickets_table forms chats emails calls).map Ticket.payload :=
    List.mem_map_of_mem Ticket.payload ht
  rw [map_payload_build] at h1
  exact List.of_mem_filter h1

/-- C2 witness: the completeness gate evaluated on a one-row form input. -/
theorem tickets_completeness_gate_witness :
    completeRecord (Ticket.mk 1 (tagSource "form" exComplete)).payload = true :=
  (tickets_completeness_gate [exComplete] [] [] []).2
    (Ticket.mk 1 (tagSource "form" exComplete)) (by decide)

/-- C3 counterexample: under the assignment order the claim states (dense
ids over the concatenated stream first, completeness filter afterwards), a
three-row form input whose middle row is incomplete yields id list [1, 3],
which is not the dense sequence 1..N the claim also asserts; the claimed
order and the claimed density are jointly false. -/
theorem ticket_id_spec_order_counterexample :
    ¬ ((spec_order_tickets_table [exComplete, exIncomplete, exComplete] [] [] []).map
        Ticket.ticket_id =
      List.range' 1
        ((spec_order_tickets_table [exComplete, exIncomplete, exComplete] [] [] []).length)) := by
  decide

/-- C3 (amended): ticket_id in the built table is exactly the dense 1-based
sequence 1..N with no gaps and no duplicates; the ids are assigned by row
position after the completeness filter (SQL evaluates WHERE before the
window function), not over the pre-filter concatenated stream. -/
theorem ticket_id_dense : ∀ forms chats emails calls,
    (build_tickets_table forms chats emails calls).map Ticket.ticket_id =
      List.range' 1 ((build_tickets_table forms chats emails calls).length) := by
  intro forms chats emails calls
  simp [build_tickets_table, assignIds, assignIdsFrom_map_id, assignIdsFrom_length]

/-- C6: every record of the built table carries one of the four source tags,
and when every raw forms row is complete, the form-tagged records of the
final table are exactly the forms passthrough (identity on all five fields),
in particular their count equals the raw forms row count. -/
theorem form_passthrough : ∀ forms chats emails calls,
    (∀ t, t ∈ build_tickets_table forms chats emails calls →
      t.payload.source ∈ (["form", "chat", "email", "call"] : List String)) ∧
    ((∀ f ∈ forms, completeRecord (tagSource "form" f) = true) →
      ((build_tickets_table forms chats emails calls).filter
          (fun t => t.payload.source == "form")).map Ticket.payload =
        forms_prepped forms ∧
      ((build_tickets_table forms chats emails calls).filter
          (fun t => t.payload.source == "form")).length = forms.length) := by
  intro forms chats emails calls
  constructor
  · intro t ht
    have h1 : t.payload ∈ (union_all forms chats emails calls).filter completeRecord :=
      mem_assignIdsFrom _ 0 ht
    exact source_of_mem_union (List.mem_of_mem_filter h1)
  · intro hforms
    have h1 := filter_assignIdsFrom (fun r => r.source == "form")
      ((union_all forms chats emails calls).filter completeRecord) 0
    have h2 : ((union_all forms chats emails calls).filter completeRecord).filter
        (fun r => r.source == "form") = forms_prepped forms := by
      rw [filter_filter_general]
      simp only [union_all, List.filter_append, forms_prepped, from_chats,
        from_emails, from_calls]
      rw [filter_form_complete forms hforms,
        filter_source_tag "chat" completeRecord chats (by decide),
        filter_source_tag "email" completeRecord emails (by decide),
        filter_source_tag "call" completeRecord calls (by decide)]
      simp
    have hmain : ((build_tickets_table forms chats emails calls).filter
        (fun t => t.payload.source == "form")).map Ticket.payload =
        forms_prepped forms := by
      exact h1.trans h2
    refine ⟨hmain, ?_⟩
    have hlen := congrArg List.length hmain
    simpa [forms_prepped] using hlen

/-- C6 witness: a single complete form row passes through and is the unique
form-tagged record of the final table. -/
theorem form_passthrough_witness :
    ((build_tickets_table [exComplete] [] [] []).filter
        (fun t => t.payload.source == "form")).map Ticket.payload =
      forms_prepped [exComplete] :=
  ((form_passthrough [exComplete] [] [] []).2 (by decide)).1

/-- C8: the pipeline never validates type or priority: tagging preserves
both fields verbatim, and every extractor output record (chat, email or
call) with non-empty subject, body and answer appears in the final table
payloads, whatever strings its type and priority hold. -/
theorem no_type_priority_validation : ∀ forms chats emails calls,
    (∀ src r, (tagSource src r).type = r.type ∧ (tagSource src r).priority = r.priority) ∧
    (∀ r ∈ chats, completeRecord (tagSource "chat" r) = true →
      tagSource "chat" r ∈ (build_tickets_table forms chats emails calls).map Ticket.payload) ∧
    (∀ r ∈ emails, completeRecord (tagSource "email" r) = true →
      tagSource "email" r ∈ (build_tickets_table forms chats emails calls).map Ticket.payload) ∧
    (∀ r ∈ calls, completeRecord (tagSource "call" r) = true →
      tagSource "call" r ∈ (build_tickets_table forms chats emails calls).map Ticket.payload) := by
  intro forms chats emails calls
  refine ⟨fun src r => ⟨rfl, rfl⟩, ?_, ?_, ?_⟩
  · intro r hr hc
    rw [map_payload_build]
    refine List.mem_filter.2 ⟨?_, hc⟩
    simp only [union_all, from_chats, List.mem_append]
    exact Or.inl (Or.inl (Or.inr (List.mem_map_of_mem _ hr)))
  · intro r hr hc
    rw [map_payload_build]
    refine List.mem_filter.2 ⟨?_, hc⟩
    simp only [union_all, from_emails, List.mem_append]
    exact Or.inl (Or.inr (List.mem_map_of_mem _ hr))
  · intro r hr hc
    rw [map_payload_build]
    refine List.mem_filter.2 ⟨?_, hc⟩
    simp only [union_all, from_calls, List.mem_append]
    exact Or.inr (List.mem_map_of_mem _ hr)

/-- C8 witness: a chat extraction record with out-of-enum type and priority
reaches the final table unchanged. -/
theorem no_type_priority_validation_witness :
    tagSource "chat" exGarbage ∈
      (build_tickets_table [] [exGarbage] [] []).map Ticket.payload :=
  (no_type_priority_validation [] [exGarbage] [] []).2.1 exGarbage (by decide) (by decide)

/-! ### Embedding backfill UPDATE and URI fill (both builders) -/

/-- A tickets-table row as seen by the embedding backfill SQL. -/
structure TicketRow where
  ticket_id : Nat
  subject : Option String
  body : Option String
  text_embedding : Option (List Int)
deriving DecidableEq, Repr

/-- SQL COALESCE of a nullable string with the empty string. -/
def coalesceStr : Option String → String
  | none => ""
  | some s => s

/-- Embeds sql_fill of tickets build_text_embeddings: the embedding subquery
reads every row of the table (its inner SELECT has no WHERE), and the UPDATE
joins only on ticket_id, with no null test on the embedding column, so every
row (ticket_id is unique) has its embedding column set to the freshly
computed vector of its current text. The external embedding capability is
the abstract function embed. -/
def build_text_embeddings_fill (embed : String → List Int) (rows : List TicketRow) :
    List TicketRow :=
  rows.map (fun r =>
    { r with
      text_embedding := some (embed (coalesceStr r.subject ++ " " ++ coalesceStr r.body)) })

/-- A products-table row as seen by products_builder. -/
structure ProductRow where
  product_id : Nat
  title : Option String
  description : Option String
  image : Option String
  uri : Option String
  text_embedding : Option (List Int)
  img_embedding : Option (List Int)
deriving DecidableEq, Repr

/-- Embeds sql_backfill of products build_text_embeddings: the same UPDATE
shape as for tickets, joined on product_id, again with no null test on the
embedding column. -/
def products_text_fill (embed : String → List Int) (rows : List ProductRow) :
    List ProductRow :=
  rows.map (fun r =>
    { r with
      text_embedding := some (embed (coalesceStr r.title ++ " " ++ coalesceStr r.description)) })

/-- Embeds the sql_fill_uri UPDATE of build_image_embeddings on one row:
SET uri = CONCAT(gp, image) WHERE uri IS NULL AND image IS NOT NULL AND
image is not the empty string. -/
def fill_uri_row (gp : String) (r : ProductRow) : ProductRow :=
  match r.uri, r.image with
  | none, some img => if img != "" then { r with uri := some (gp ++ img) } else r
  | _, _ => r

/-- Embeds the URI-fill step of build_image_embeddings: the location string
is normalized first, and the UPDATE runs only when the normalized string is
nonempty (the Python truthiness guard). -/
def fill_uri_step (gcsRoot : String) (rows : List ProductRow) : List ProductRow :=
  if normalizeGcs gcsRoot = "" then rows
  else rows.map (fill_uri_row (normalizeGcs gcsRoot))

/-- A toy embedding capability for concrete evaluation: the text length. -/
def embedLen : String → List Int := fun s => [(s.length : Int)]

/-- A ticket row already embedded before the backfill run. -/
def stale_ticket : TicketRow :=
  { ticket_id := 1, subject := some "a", body := some "b", text_embedding := some [99] }

/-- A product row already embedded before the backfill run. -/
def stale_product : ProductRow :=
  { product_id := 7, title := some "t", description := some "d", image := none,
    uri := none, text_embedding := some [99], img_embedding := none }

/-- C1 evaluation: the backfill UPDATE carries no null test on the embedding
column, so a row that already holds the embedding [99] is overwritten with
the freshly computed vector of its current text, for the tickets table and
the products table alike — refuting only-where-null backfill. -/
theorem backfill_overwrites_populated_rows :
    (build_text_embeddings_fill embedLen [stale_ticket]).map TicketRow.text_embedding
      = [some [3]] ∧
    stale_ticket.text_embedding = some [99] ∧
    (products_text_fill embedLen [stale_product]).map ProductRow.text_embedding
      = [some [3]] ∧
    stale_product.text_embedding = some [99] ∧
    (some [3] : Option (List Int)) ≠ some [99] := by
  decide

lemma fill_uri_row_cases (gp : String) (r : ProductRow) :
    (r.uri ≠ none → fill_uri_row gp r = r) ∧
    ((fill_uri_row gp r).uri ≠ r.uri → r.uri = none ∧ ∃ img, r.image = some img ∧
      img ≠ "" ∧ (fill_uri_row gp r).uri = some (gp ++ img)) ∧
    (r.uri = none → ∀ img, r.image = some img → img ≠ "" →
      (fill_uri_row gp r).uri = some (gp ++ img)) := by
  obtain ⟨pid, title, desc, image, uri, te, ie⟩ := r
  cases uri with
  | some u =>
    refine ⟨fun _ => rfl, fun h => (h rfl).elim, fun h0 => ?_⟩
    exact absurd h0 (by simp)
  | none =>
    cases image with
    | none =>
      refine ⟨fun h => (h rfl).elim, fun h => (h rfl).elim, ?_⟩
      intro _ img himg
      exact absurd himg (by simp)
    | some img =>
      by_cases he : img = ""
      · subst he
        refine ⟨fun h => (h rfl).elim, fun h => (h rfl).elim, ?_⟩
        intro _ img2 himg2 hne2
        have : img2 = "" := by simpa using himg2.symm
        exact absurd this hne2
      · have hb : (img != "") = true := by simpa using he
        refine ⟨fun h => (h rfl).elim, ?_, ?_⟩
        · intro _
          refine ⟨rfl, img, rfl, he, ?_⟩
          simp [fill_uri_row, hb]
        · intro _ img2 himg2 _
          have h2 : img2 = img := by simpa using himg2.symm
          subst h2
          simp [fill_uri_row, hb]

/-- A product row whose uri was already set by hand, with a different image
filename, as in the spec scenario for URI write-once. -/
def custom_uri_product : ProductRow :=
  { product_id := 1, title := none, description := none, image := some "other.jpg",
    uri := some "gs://bucket/custom.jpg", text_embedding := none, img_embedding := none }

/-- C7: the URI-fill step is write-once-if-null. Positionally pairing input
and output rows: a row whose uri was non-null is returned unchanged; an
output uri differing from the input one can only arise when the input uri
was null and the image filename non-null and non-empty, and then it equals
the normalized location concatenated with the filename; conversely, under
those conditions (and a nonempty normalized location) the uri is set to
exactly that value. The spec scenario row with uri already set to
gs://bucket/custom.jpg and image other.jpg is left unchanged. -/
theorem uri_fill_write_once :
    (∀ gcsRoot rows,
      List.Forall₂ (fun r rr : ProductRow =>
        (r.uri ≠ none → rr = r) ∧
        (rr.uri ≠ r.uri → r.uri = none ∧ ∃ img, r.image = some img ∧ img ≠ "" ∧
          rr.uri = some (normalizeGcs gcsRoot ++ img)) ∧
        (r.uri = none → normalizeGcs gcsRoot ≠ "" → ∀ img, r.image = some img →
          img ≠ "" → rr.uri = some (normalizeGcs gcsRoot ++ img)))
        rows (fill_uri_step gcsRoot rows)) ∧
    fill_uri_step "gs://bucket" [custom_uri_product] = [custom_uri_product] := by
  constructor
  · intro gcsRoot rows
    unfold fill_uri_step
    by_cases hgp : normalizeGcs gcsRoot = ""
    · rw [if_pos hgp]
      refine List.forall₂_same.2 ?_
      intro r _
      exact ⟨fun _ => rfl, fun h => (h rfl).elim, fun _ hne => (hne hgp).elim⟩
    · rw [if_neg hgp]
      refine List.forall₂_map_right_iff.2 (List.forall₂_same.2 ?_)
      intro r _
      rcases fill_uri_row_cases (normalizeGcs gcsRoot) r with ⟨h1, h2, h3⟩
      exact ⟨h1, h2, fun h0 _ img himg hne => h3 h0 img himg hne⟩
  · decide

end SmartStore
